import Mathlib

/-!
Verification of the Azure AI Foundry chat relay.

Shallow embedding of `azureFoundryClient` (src/unnamed/part_000),
`index.ts` and `config.ts` (src/packages/server/src).  JavaScript values
appearing in upstream payloads are modelled by the inductive `JSValue`;
property access, truthiness and nullish coalescing follow JavaScript
semantics.
-/

namespace AzureRelay

/-- A JavaScript runtime value, as far as the relay inspects them. -/
inductive JSValue where
  | str (s : String)
  | num (n : Int)
  | boolean (b : Bool)
  | null
  | undefined
  | arr (items : List JSValue)
  | obj (fields : List (String × JSValue))

/-- JavaScript truthiness: `""`, `0`, `false`, `null`, `undefined` are falsy;
arrays and objects are always truthy. -/
def truthy : JSValue → Bool
  | .str s => s ≠ ""
  | .num n => n ≠ 0
  | .boolean b => b
  | .null => false
  | .undefined => false
  | .arr _ => true
  | .obj _ => true

/-- Holds on `null` and `undefined` (the values the `??` operator replaces). -/
def nullish : JSValue → Bool
  | .null => true
  | .undefined => true
  | _ => false

/-- First binding of `key` in an object's field list; `undefined` if absent. -/
def lookupField : List (String × JSValue) → String → JSValue
  | [], _ => .undefined
  | (k, v) :: rest, key => if k = key then v else lookupField rest key

/-- Property access `v[key]` on a value known not to be `null`/`undefined`
(JavaScript property access on other primitives yields `undefined`, it
does not throw). -/
def getField : JSValue → String → JSValue
  | .obj fields, key => lookupField fields key
  | _, _ => .undefined

/-- The nullish-coalescing operator `v ?? d`. -/
def coalesce (v d : JSValue) : JSValue :=
  if nullish v then d else v

/-- The per-chunk mapping of `normaliseContent`'s array branch:
falsy chunks give `""`; a string passes through; otherwise the first of
`text`, `content`, `value` holding a string is used, else `""`. -/
def chunkToString (chunk : JSValue) : String :=
  if truthy chunk = false then ""
  else
    match chunk with
    | .str s => s
    | c =>
      match getField c "text" with
      | .str s => s
      | _ =>
        match getField c "content" with
        | .str s => s
        | _ =>
          match getField c "value" with
          | .str s => s
          | _ => ""

/-- Embeds `AzureFoundryClient.normaliseContent` (part_000 lines 51–94):
strings pass through; falsy values give `""`; an array maps each chunk
through `chunkToString`, drops empty results (`filter(Boolean)`) and joins
with `"\n"`; an object with a string `text` uses it, and with an array
`text` recursively normalises each element and joins with `"\n"`
(without filtering); everything else gives `""`.  Non-string truthy
primitives reach the `text` probe, which yields `undefined`, hence `""`. -/
def normaliseContent : JSValue → String
  | .str s => s
  | .null => ""
  | .undefined => ""
  | .boolean _ => ""
  | .num _ => ""
  | .arr chunks =>
      String.intercalate "\n" ((chunks.map chunkToString).filter (fun s => s ≠ ""))
  | .obj fields =>
      match h : lookupField fields "text" with
      | .str s => s
      | .arr items =>
          String.intercalate "\n" (items.attach.map (fun x => normaliseContent x.1))
      | _ => ""
termination_by v => sizeOf v
decreasing_by
  have hlk : ∀ (fs : List (String × JSValue)) (key : String),
      sizeOf (lookupField fs key) ≤ sizeOf fs := by
    intro fs key
    induction fs with
    | nil => simp [lookupField]
    | cons p rest ih =>
      obtain ⟨k, v⟩ := p
      simp only [lookupField]
      split
      · simp only [List.cons.sizeOf_spec, Prod.mk.sizeOf_spec]
        omega
      · simp only [List.cons.sizeOf_spec, Prod.mk.sizeOf_spec]
        omega
  have h1 : sizeOf (JSValue.arr items) ≤ sizeOf fields := by
    rw [← h]; exact hlk fields "text"
  have h2 := List.sizeOf_lt_of_mem x.2
  simp only [JSValue.arr.sizeOf_spec, JSValue.obj.sizeOf_spec] at *
  omega

/-- The `FoundryMessage` shape produced by `mapMessage`.  The TypeScript
interface types the fields as strings, but `mapMessage(message: any)` copies
whatever non-nullish runtime value is present, so the fields are `JSValue`. -/
structure FoundryMessage where
  id : JSValue
  role : JSValue
  content : String
  createdAt : JSValue

/-- The `FoundryRun` shape: `{id, status}` as received from the remote API
(`status` may be absent or non-string at runtime). -/
structure FoundryRun where
  id : JSValue
  status : JSValue

/-- Embeds `AzureFoundryClient.mapMessage` (part_000 lines 96–103).  `freshUuid`
stands for the `randomUUID()` drawn for this call and `nowIso` for
`new Date().toISOString()`.  JavaScript property access on `null` or
`undefined` throws, hence the error branches. -/
def mapMessage (freshUuid nowIso : String) (message : JSValue) :
    Except String FoundryMessage :=
  match message with
  | .null => .error "TypeError: cannot read properties of null"
  | .undefined => .error "TypeError: cannot read properties of undefined"
  | m =>
      .ok
        { id := coalesce (getField m "id") (.str freshUuid)
          role := coalesce (getField m "role") (.str "assistant")
          content := normaliseContent (getField m "content")
          createdAt := coalesce (getField m "created_at") (.str nowIso) }

/-- Embeds `data.map((message) => this.mapMessage(message))` with a fresh UUID per
element, short-circuiting on a thrown `TypeError`. -/
def mapMessages (uuids : Nat → String) (nowIso : String) :
    Nat → List JSValue → Except String (List FoundryMessage)
  | _, [] => .ok []
  | i, m :: rest =>
      match mapMessage (uuids i) nowIso m with
      | .error e => .error e
      | .ok fm =>
          match mapMessages uuids nowIso (i + 1) rest with
          | .error e => .error e
          | .ok fms => .ok (fm :: fms)

/-- Outcome of one `GET /threads/{threadId}/runs/{runId}` inside the poll
loop: a non-success HTTP response with its body `detail`, or a parsed run. -/
inductive PollResponse where
  | failure (detail : String)
  | ok (run : FoundryRun)

/-- Result of `pollRun`. -/
inductive PollOutcome where
  | success (run : FoundryRun)
  | remoteError (detail : String)
  | timeout

/-- Embeds `["queued", "in_progress"].includes(run.status)`: `includes` uses
SameValueZero, so only the two exact strings are members. -/
def isRunInProgressStatus : JSValue → Bool
  | .str s => s = "queued" || s = "in_progress"
  | _ => false

/-- The loop's exit test (part_000 line 186):
`!run.status || !["queued", "in_progress"].includes(run.status)`. -/
def pollShouldReturn (status : JSValue) : Bool :=
  truthy status = false || !(isRunInProgressStatus status)

/-- Embeds `setTimeout(resolve, 800)`: the fixed poll interval in milliseconds. -/
def pollIntervalMs : Nat := 800

/-- The default `timeoutMs` of `pollRun`. -/
def defaultTimeoutMs : Nat := 120000

/-- The poll iterations that fit in `timeoutMs`: with zero-latency fetches
the i-th fetch happens at elapsed time `800 * i`, and the loop guard is
`Date.now() - start < timeoutMs`, so `⌈timeoutMs / 800⌉` iterations run. -/
def pollIterations (timeoutMs : Nat) : Nat :=
  (timeoutMs + pollIntervalMs - 1) / pollIntervalMs

/-- The body of `pollRun`'s `while` loop, iterating over the responses of
the successive status fetches (`responses i` is the i-th fetch), with the
remaining iteration budget as fuel. -/
def pollSteps (responses : Nat → PollResponse) : Nat → Nat → PollOutcome
  | _, 0 => .timeout
  | i, fuel + 1 =>
      match responses i with
      | .failure detail => .remoteError detail
      | .ok run =>
          if pollShouldReturn run.status then .success run
          else pollSteps responses (i + 1) fuel

/-- Embeds `AzureFoundryClient.pollRun` (part_000 lines 161–194), idealised to
zero-latency fetches and exact 800 ms sleeps: fetches run status at
iterations `0, 1, 2, …` while `800 * i < timeoutMs`, returning the first
run that passes the exit test, failing on the first non-success fetch, and
timing out when the budget is exhausted. -/
def pollRunModel (responses : Nat → PollResponse)
    (timeoutMs : Nat := defaultTimeoutMs) : PollOutcome :=
  pollSteps responses 0 (pollIterations timeoutMs)

/-- The remote behaviour a single `sendMessage` turn observes: each field
is the response to one of the sequential outbound calls. -/
structure SendEnv where
  /-- Response to `POST /threads`: error detail, or the parsed body. -/
  createThreadResponse : Except String JSValue
  /-- Response to `POST /threads/{id}/messages`. -/
  appendResponse : Except String Unit
  /-- Response to `POST /threads/{id}/runs`: error detail or the run. -/
  startRunResponse : Except String FoundryRun
  /-- Response to the i-th status fetch of the poll loop. -/
  pollResponses : Nat → PollResponse
  /-- Response to `GET /threads/{id}/messages?order=asc`: error detail or
  the parsed payload. -/
  listResponse : Except String JSValue
  /-- The `randomUUID()` stream consumed while mapping messages. -/
  freshUuids : Nat → String
  /-- `new Date().toISOString()` while mapping messages. -/
  nowIso : String

/-- The create-thread branch of `ensureThread` (part_000 lines 110–124):
on a success response the body's `id` must be truthy, else an error. -/
def createThreadModel (env : SendEnv) : Except String JSValue :=
  match env.createThreadResponse with
  | .error detail => .error detail
  | .ok body =>
      if truthy (getField body "id") then .ok (getField body "id")
      else .error "Thread creation response did not include an id"

/-- Embeds `AzureFoundryClient.ensureThread` (part_000 lines 105–125):
`if (threadId) return threadId;` — a supplied truthy string is reused
verbatim (the empty string is falsy and triggers creation). -/
def ensureThreadModel (env : SendEnv) (threadId : Option String) :
    Except String JSValue :=
  match threadId with
  | some t => if t ≠ "" then .ok (.str t) else createThreadModel env
  | none => createThreadModel env

/-- Embeds `Array.isArray(payload?.data) ? payload.data : []` (part_000 line 214). -/
def dataArray (payload : JSValue) : List JSValue :=
  match getField payload "data" with
  | .arr items => items
  | _ => []

/-- Embeds `AzureFoundryClient.listMessages` (part_000 lines 196–216). -/
def listMessagesModel (env : SendEnv) : Except String (List FoundryMessage) :=
  match env.listResponse with
  | .error detail => .error detail
  | .ok payload => mapMessages env.freshUuids env.nowIso 0 (dataArray payload)

/-- The result record of `sendMessage`. -/
structure SendResult where
  threadId : JSValue
  messages : List FoundryMessage
  run : FoundryRun

/-- Embeds `AzureFoundryClient.sendMessage` (part_000 lines 218–232): ensure the
thread, append the user message, start a run, poll it to completion with
the default timeout, then list the whole thread. -/
def sendMessageModel (env : SendEnv) (_content : String)
    (threadId : Option String) : Except String SendResult :=
  match ensureThreadModel env threadId with
  | .error e => .error e
  | .ok tid =>
      match env.appendResponse with
      | .error e => .error e
      | .ok _ =>
          match env.startRunResponse with
          | .error e => .error e
          | .ok _run =>
              match pollRunModel env.pollResponses defaultTimeoutMs with
              | .remoteError d => .error d
              | .timeout => .error "Timed out while waiting for the agent response"
              | .success finalRun =>
                  match listMessagesModel env with
                  | .error e => .error e
                  | .ok msgs => .ok ⟨tid, msgs, finalRun⟩

/-! ### Relay endpoint (src/packages/server/src/index.ts) -/

/-- JavaScript `String.prototype.trim` (as zod's `.trim()` uses it):
strip leading and trailing whitespace. -/
def jsTrim (s : String) : String :=
  ⟨((s.data.dropWhile Char.isWhitespace).reverse.dropWhile
      Char.isWhitespace).reverse⟩

/-- Embeds `chatPayloadSchema` (index.ts lines 25–28): `message` must be a string
that is non-empty after trimming (the trimmed value is what the handler
receives); `threadId`, when present, must likewise be a non-empty trimmed
string, and `undefined` is accepted as absent.  Returns the parsed payload
or `none` on validation failure. -/
def validateChatPayload (body : JSValue) : Option (String × Option String) :=
  match getField body "message" with
  | .str s =>
      if jsTrim s = "" then none
      else
        match getField body "threadId" with
        | .undefined => some (jsTrim s, none)
        | .str t =>
            if jsTrim t = "" then none else some (jsTrim s, some (jsTrim t))
        | _ => none
  | _ => none

/-- The response of `POST /api/chat`, abbreviated to the parts the spec
talks about (HTTP status and the success payload). -/
inductive ChatOutcome where
  | unavailable
  | badRequest
  | success (threadId : JSValue) (messages : List FoundryMessage)
  | badGateway (detail : String)

/-- The `POST /api/chat` handler (index.ts lines 54–83): 503 when no
client is configured (checked before anything else), 400 on validation
failure, otherwise delegate to `sendMessage`, mapping a failure to 502.
The boolean records whether the remote client was invoked at all. -/
def handleChat (configured : Bool) (env : SendEnv) (body : JSValue) :
    ChatOutcome × Bool :=
  if configured = false then (.unavailable, false)
  else
    match validateChatPayload body with
    | none => (.badRequest, false)
    | some (msg, tid) =>
        match sendMessageModel env msg tid with
        | .ok res => (.success res.threadId res.messages, true)
        | .error e => (.badGateway e, true)

/-! ### Outbound call trace and token freshness

`authHeaders` (part_000 lines 32–43) acquires a credential token each time
it is called.  The trace model numbers acquisitions `0, 1, 2, …` in the
order they happen during one `sendMessage` turn and records, for every
outbound HTTP call, which acquisition produced the bearer token it
carries. -/

/-- The fixed API version appended to every request. -/
def API_VERSION : String := "2025-05-01"

/-- Embeds `AzureFoundryClient.url` (part_000 lines 45–49). -/
def urlModel (baseUrl path : String) : String :=
  let separator := if path.startsWith "/" then "" else "/"
  let query := if path.contains '?' then "&" else "?"
  baseUrl ++ separator ++ path ++ query ++ "api-version=" ++ API_VERSION

/-- One outbound HTTP request, tagged with the index of the `authHeaders`
acquisition whose token it carries. -/
structure OutboundCall where
  method : String
  path : String
  token : Nat

/-- Truthiness of the optional `threadId` parameter (`if (threadId)`):
`undefined` and the empty string are falsy. -/
def threadIdTruthy : Option String → Bool
  | some t => t ≠ ""
  | none => false

/-- Calls made by `ensureThread`: none when a truthy id is supplied,
otherwise one `POST /threads` under a fresh token.  Takes and returns the
next acquisition index. -/
def ensureThreadCalls (threadId : Option String) (n : Nat) :
    List OutboundCall × Nat :=
  if threadIdTruthy threadId then ([], n)
  else ([⟨"POST", "/threads", n⟩], n + 1)

/-- Calls of `appendUserMessage`: one `POST` under a fresh token. -/
def appendUserMessageCalls (threadId : String) (n : Nat) :
    List OutboundCall × Nat :=
  ([⟨"POST", "/threads/" ++ threadId ++ "/messages", n⟩], n + 1)

/-- Calls of `startRun`: one `POST` under a fresh token. -/
def startRunCalls (threadId : String) (n : Nat) : List OutboundCall × Nat :=
  ([⟨"POST", "/threads/" ++ threadId ++ "/runs", n⟩], n + 1)

/-- Calls of `pollRun` (part_000 lines 161–194): `authHeaders` is awaited ONCE,
before the `while` loop, and the same `headers` object is passed to every
status fetch, so all `iters` fetches carry token `n`. -/
def pollRunCalls (threadId runId : String) (iters : Nat) (n : Nat) :
    List OutboundCall × Nat :=
  ((List.range iters).map
      (fun _ => ⟨"GET", "/threads/" ++ threadId ++ "/runs/" ++ runId, n⟩),
    n + 1)

/-- Calls of `listMessages`: one `GET` with `order=asc` under a fresh token. -/
def listMessagesCalls (threadId : String) (n : Nat) :
    List OutboundCall × Nat :=
  ([⟨"GET", "/threads/" ++ threadId ++ "/messages?order=asc", n⟩], n + 1)

/-- The full outbound trace of one `sendMessage` turn in which the poll
loop performed `iters` status fetches, with `tid`/`runId` the identifiers
in play. -/
def sendMessageCalls (threadId : Option String) (tid runId : String)
    (iters : Nat) : List OutboundCall :=
  let (c₁, n₁) := ensureThreadCalls threadId 0
  let (c₂, n₂) := appendUserMessageCalls tid n₁
  let (c₃, n₃) := startRunCalls tid n₂
  let (c₄, n₄) := pollRunCalls tid runId iters n₃
  let (c₅, _) := listMessagesCalls tid n₄
  c₁ ++ c₂ ++ c₃ ++ c₄ ++ c₅

/-- The rule the spec states for a nested `text` array: "recursively apply
the same chunk-joining rule" as the top-level array case — normalise each
element, drop the empty results, join the rest with a newline.  Stated from
the spec's words, for comparison with `normaliseContent`. -/
def specNestedTextJoin (items : List JSValue) : String :=
  String.intercalate "\n" ((items.map normaliseContent).filter (fun s => s ≠ ""))

/-- The status-fetch responses used by the C3 witness: in progress once,
then completed. -/
def pollRespW : Nat → PollResponse := fun i =>
  if i = 0 then .ok ⟨.str "r1", .str "in_progress"⟩
  else .ok ⟨.str "r1", .str "completed"⟩

/-- The remote behaviour used by the C6 and C7 witnesses. -/
def envW : SendEnv where
  createThreadResponse := .ok (.obj [("id", .str "T1")])
  appendResponse := .ok ()
  startRunResponse := .ok ⟨.str "R1", .str "queued"⟩
  pollResponses := fun _ => .ok ⟨.str "R1", .str "completed"⟩
  listResponse := .ok (.obj [("data", .arr [.obj [("id", .str "m1"),
    ("role", .str "user"), ("content", .str "hi"), ("created_at", .str "t0")]])])
  freshUuids := fun _ => "u"
  nowIso := "now"

/-- The result `sendMessage` produces against `envW` on thread `"T0"`. -/
def resW : SendResult where
  threadId := .str "T0"
  messages := [⟨.str "m1", .str "user", "hi", .str "t0"⟩]
  run := ⟨.str "R1", .str "completed"⟩

/-! ### Equation lemmas for `normaliseContent` -/

theorem list_attach_map (l : List JSValue) (f : JSValue → String) :
    l.attach.map (fun x => f x.1) = l.map f :=
  List.attach_map_val l f

@[simp] theorem normaliseContent_str (s : String) :
    normaliseContent (.str s) = s := by
  simp [normaliseContent]

@[simp] theorem normaliseContent_null : normaliseContent .null = "" := by
  simp [normaliseContent]

@[simp] theorem normaliseContent_undef : normaliseContent .undefined = "" := by
  simp [normaliseContent]

@[simp] theorem normaliseContent_boolean (b : Bool) :
    normaliseContent (.boolean b) = "" := by
  simp [normaliseContent]

@[simp] theorem normaliseContent_num (n : Int) :
    normaliseContent (.num n) = "" := by
  simp [normaliseContent]

@[simp] theorem normaliseContent_arr (chunks : List JSValue) :
    normaliseContent (.arr chunks) =
      String.intercalate "\n" ((chunks.map chunkToString).filter (fun s => s ≠ "")) := by
  simp [normaliseContent]

theorem normaliseContent_obj (fields : List (String × JSValue)) :
    normaliseContent (.obj fields) =
      match lookupField fields "text" with
      | .str s => s
      | .arr items => String.intercalate "\n" (items.map normaliseContent)
      | _ => "" := by
  rw [normaliseContent]
  split
  next s heq => rw [heq]
  next items heq => rw [heq, list_attach_map]
  next => split <;> simp_all

/-- C1: the spec's normalization test vectors hold on the code:
`normalize("hello") = "hello"`, `normalize(null) = ""`,
`normalize([{text:"a"},{content:"b"},{value:"c"},{}]) = "a\nb\nc"` (the
chunk with no recognised field contributes `""` and non-empty results are
joined with a newline), and `normalize({text:["x","y"]}) = "x\ny"`. -/
theorem normaliseContent_test_vectors :
    normaliseContent (.str "hello") = "hello" ∧
    normaliseContent .null = "" ∧
    normaliseContent (.arr [.obj [("text", .str "a")], .obj [("content", .str "b")],
      .obj [("value", .str "c")], .obj []]) = "a\nb\nc" ∧
    chunkToString (.obj []) = "" ∧
    normaliseContent (.obj [("text", .arr [.str "x", .str "y"])]) = "x\ny" := by
  refine ⟨by simp, by simp, ?_,
    by simp [chunkToString, getField, lookupField, truthy], ?_⟩
  · simp [chunkToString, getField, lookupField, truthy]
    rfl
  · simp [normaliseContent_obj, lookupField]
    rfl

/-- C2: content normalization is a total function into strings and is
deterministic — it is defined for every `JSValue` shape (string, null,
undefined, number, boolean, arbitrary array or object) and equal inputs
give equal outputs. -/
theorem normaliseContent_total_deterministic (v w : JSValue) (h : v = w) :
    (∃ s : String, normaliseContent v = s) ∧
      normaliseContent v = normaliseContent w :=
  ⟨⟨normaliseContent v, rfl⟩, by rw [h]⟩

theorem normaliseContent_total_deterministic_witness :
    (∃ s : String, normaliseContent (.num 7) = s) ∧
      normaliseContent (.num 7) = normaliseContent (.num 7) :=
  normaliseContent_total_deterministic (.num 7) (.num 7) rfl

/-- C5 counterexample: on `{text: ["x", null, "y"]}` the code maps each
element through the full recursive normalization and joins WITHOUT
dropping empty results, giving `"x\n\ny"`, while the claim's rule (drop
empties, then join) gives `"x\ny"`. -/
theorem normaliseContent_nested_no_filter_cex :
    normaliseContent (.obj [("text", .arr [.str "x", .null, .str "y"])]) = "x\n\ny" ∧
    specNestedTextJoin [.str "x", .null, .str "y"] = "x\ny" ∧
    normaliseContent (.obj [("text", .arr [.str "x", .null, .str "y"])]) ≠
      specNestedTextJoin [.str "x", .null, .str "y"] := by
  have h1 : normaliseContent (.obj [("text", .arr [.str "x", .null, .str "y"])])
      = "x\n\ny" := by
    simp [normaliseContent_obj, lookupField]
    rfl
  have h2 : specNestedTextJoin [.str "x", .null, .str "y"] = "x\ny" := by
    simp [specNestedTextJoin]
    rfl
  refine ⟨h1, h2, ?_⟩
  rw [h1, h2]
  decide

/-- C5 amended: for an object whose `text` field is an array, each element
is recursively normalised by the full normalization function (not the
shallow top-level chunk probe) and ALL results — including empty ones —
are joined with a newline; empty results are not dropped. -/
theorem normaliseContent_nested_join (fields : List (String × JSValue))
    (items : List JSValue) (h : lookupField fields "text" = .arr items) :
    normaliseContent (.obj fields) =
      String.intercalate "\n" (items.map normaliseContent) := by
  rw [normaliseContent_obj, h]

theorem normaliseContent_nested_join_witness :
    normaliseContent (.obj [("text", .arr [.str "x", .null, .str "y"])]) =
      String.intercalate "\n"
        ([JSValue.str "x", JSValue.null, JSValue.str "y"].map normaliseContent) :=
  normaliseContent_nested_join [("text", .arr [.str "x", .null, .str "y"])]
    [.str "x", .null, .str "y"] rfl

/-- C9: `mapMessage` populates all four fields through defaults: a nullish
`id` becomes the freshly drawn UUID, a nullish `role` becomes
`"assistant"`, a nullish `created_at` becomes the current timestamp — so
two calls on an id-less message that draw different UUIDs produce
different results (the mapping is nondeterministic across runs). -/
theorem mapMessage_defaults (u₁ u₂ n : String) (fields : List (String × JSValue))
    (hid : nullish (lookupField fields "id") = true)
    (hrole : nullish (lookupField fields "role") = true)
    (hca : nullish (lookupField fields "created_at") = true)
    (hne : u₁ ≠ u₂) :
    ∃ m₁ m₂ : FoundryMessage,
      mapMessage u₁ n (.obj fields) = .ok m₁ ∧
      mapMessage u₂ n (.obj fields) = .ok m₂ ∧
      m₁.id = .str u₁ ∧ m₁.role = .str "assistant" ∧
      m₁.createdAt = .str n ∧ m₁ ≠ m₂ := by
  have e1 : mapMessage u₁ n (.obj fields) = .ok
      ⟨.str u₁, .str "assistant",
        normaliseContent (lookupField fields "content"), .str n⟩ := by
    simp [mapMessage, getField, coalesce, hid, hrole, hca]
  have e2 : mapMessage u₂ n (.obj fields) = .ok
      ⟨.str u₂, .str "assistant",
        normaliseContent (lookupField fields "content"), .str n⟩ := by
    simp [mapMessage, getField, coalesce, hid, hrole, hca]
  refine ⟨_, _, e1, e2, rfl, rfl, rfl, ?_⟩
  intro heq
  apply hne
  have hids := congrArg FoundryMessage.id heq
  simpa using hids

theorem mapMessage_defaults_witness :
    ∃ m₁ m₂ : FoundryMessage,
      mapMessage "u1" "now" (.obj [("content", .str "hi")]) = .ok m₁ ∧
      mapMessage "u2" "now" (.obj [("content", .str "hi")]) = .ok m₂ ∧
      m₁.id = .str "u1" ∧ m₁.role = .str "assistant" ∧
      m₁.createdAt = .str "now" ∧ m₁ ≠ m₂ :=
  mapMessage_defaults "u1" "u2" "now" [("content", .str "hi")]
    rfl rfl rfl (by decide)

/-- C10: a fetched run whose `status` is missing (`undefined`), `null`, or
the empty string passes the loop's exit test (`!run.status` is true for
every falsy value), so `pollRun` returns that run immediately. -/
theorem pollRun_falsy_status_returns (responses : Nat → PollResponse)
    (timeoutMs : Nat) (run : FoundryRun)
    (h0 : responses 0 = .ok run)
    (hst : run.status = .undefined ∨ run.status = .null ∨ run.status = .str "")
    (ht : 0 < timeoutMs) :
    pollShouldReturn run.status = true ∧
    pollRunModel responses timeoutMs = .success run := by
  have hret : pollShouldReturn run.status = true := by
    rcases hst with h | h | h <;> simp [pollShouldReturn, truthy, h]
  refine ⟨hret, ?_⟩
  have hiter : 0 < pollIterations timeoutMs := by
    simp only [pollIterations, pollIntervalMs]
    omega
  obtain ⟨k, hk⟩ : ∃ k, pollIterations timeoutMs = k + 1 :=
    ⟨pollIterations timeoutMs - 1, (Nat.succ_pred_eq_of_pos hiter).symm⟩
  unfold pollRunModel
  rw [hk]
  simp [pollSteps, h0, hret]

theorem pollRun_falsy_status_returns_witness :
    pollShouldReturn (FoundryRun.mk (.str "r1") .undefined).status = true ∧
    pollRunModel (fun _ => .ok ⟨.str "r1", .undefined⟩) 800 =
      .success ⟨.str "r1", .undefined⟩ :=
  pollRun_falsy_status_returns (fun _ => .ok ⟨.str "r1", .undefined⟩) 800
    ⟨.str "r1", .undefined⟩ rfl (Or.inl rfl) (by decide)

/-! ### Behaviour of the poll loop -/

theorem pollSteps_success_of (responses : Nat → PollResponse) :
    ∀ (j fuel start : Nat) (run : FoundryRun), j < fuel →
      (∀ i, i < j → ∃ r, responses (start + i) = .ok r ∧
        pollShouldReturn r.status = false) →
      responses (start + j) = .ok run → pollShouldReturn run.status = true →
      pollSteps responses start fuel = .success run := by
  intro j
  induction j with
  | zero =>
    intro fuel start run hj _ hj' hterm
    obtain ⟨f, rfl⟩ : ∃ f, fuel = f + 1 := ⟨fuel - 1, by omega⟩
    rw [Nat.add_zero] at hj'
    simp [pollSteps, hj', hterm]
  | succ j ih =>
    intro fuel start run hj hpre hj' hterm
    obtain ⟨f, rfl⟩ : ∃ f, fuel = f + 1 := ⟨fuel - 1, by omega⟩
    obtain ⟨r0, hr0, hr0f⟩ := hpre 0 (by omega)
    rw [Nat.add_zero] at hr0
    simp only [pollSteps, hr0, hr0f]
    simp only [Bool.false_eq_true, if_false]
    refine ih f (start + 1) run (by omega) ?_ ?_ hterm
    · intro i hi
      have hh := hpre (i + 1) (by omega)
      rwa [show start + (i + 1) = start + 1 + i from by omega] at hh
    · rwa [show start + 1 + j = start + (j + 1) from by omega]

theorem pollSteps_failure_of (responses : Nat → PollResponse) :
    ∀ (j fuel start : Nat) (detail : String), j < fuel →
      (∀ i, i < j → ∃ r, responses (start + i) = .ok r ∧
        pollShouldReturn r.status = false) →
      responses (start + j) = .failure detail →
      pollSteps responses start fuel = .remoteError detail := by
  intro j
  induction j with
  | zero =>
    intro fuel start detail hj _ hj'
    obtain ⟨f, rfl⟩ : ∃ f, fuel = f + 1 := ⟨fuel - 1, by omega⟩
    rw [Nat.add_zero] at hj'
    simp [pollSteps, hj']
  | succ j ih =>
    intro fuel start detail hj hpre hj'
    obtain ⟨f, rfl⟩ : ∃ f, fuel = f + 1 := ⟨fuel - 1, by omega⟩
    obtain ⟨r0, hr0, hr0f⟩ := hpre 0 (by omega)
    rw [Nat.add_zero] at hr0
    simp only [pollSteps, hr0, hr0f]
    simp only [Bool.false_eq_true, if_false]
    refine ih f (start + 1) detail (by omega) ?_ ?_
    · intro i hi
      have hh := hpre (i + 1) (by omega)
      rwa [show start + (i + 1) = start + 1 + i from by omega] at hh
    · rwa [show start + 1 + j = start + (j + 1) from by omega]

theorem pollSteps_timeout_of (responses : Nat → PollResponse) :
    ∀ (fuel start : Nat),
      (∀ i, i < fuel → ∃ r, responses (start + i) = .ok r ∧
        pollShouldReturn r.status = false) →
      pollSteps responses start fuel = .timeout := by
  intro fuel
  induction fuel with
  | zero => intro start _; rfl
  | succ f ih =>
    intro start hall
    obtain ⟨r0, hr0, hr0f⟩ := hall 0 (by omega)
    rw [Nat.add_zero] at hr0
    simp only [pollSteps, hr0, hr0f]
    simp only [Bool.false_eq_true, if_false]
    refine ih (start + 1) ?_
    intro i hi
    have hh := hall (i + 1) (by omega)
    rwa [show start + (i + 1) = start + 1 + i from by omega] at hh

/-- C3: the poll interval is the fixed 800 ms and the default timeout is
120000 ms; the loop's exit test holds exactly on statuses outside
{"queued","in_progress"}; within the iteration budget `⌈timeoutMs/800⌉`
the loop returns the first observed run passing that test, a non-success
status fetch makes it fail immediately with that fetch's detail, and when
every observed status stays in the in-progress set the loop ends in
timeout instead of running forever. -/
theorem pollRun_first_terminal_or_timeout (responses : Nat → PollResponse)
    (timeoutMs j : Nat) :
    pollIntervalMs = 800 ∧ defaultTimeoutMs = 120000 ∧
    (∀ st, pollShouldReturn st = !(isRunInProgressStatus st)) ∧
    (∀ run, j < pollIterations timeoutMs →
      (∀ i, i < j → ∃ r, responses i = .ok r ∧
        pollShouldReturn r.status = false) →
      responses j = .ok run → pollShouldReturn run.status = true →
      pollRunModel responses timeoutMs = .success run) ∧
    (∀ detail, j < pollIterations timeoutMs →
      (∀ i, i < j → ∃ r, responses i = .ok r ∧
        pollShouldReturn r.status = false) →
      responses j = .failure detail →
      pollRunModel responses timeoutMs = .remoteError detail) ∧
    ((∀ i, i < pollIterations timeoutMs →
        ∃ r, responses i = .ok r ∧ pollShouldReturn r.status = false) →
      pollRunModel responses timeoutMs = .timeout) := by
  refine ⟨rfl, rfl, ?_, ?_, ?_, ?_⟩
  · intro st
    cases st <;> simp [pollShouldReturn, isRunInProgressStatus, truthy]
    next s =>
      by_cases hs : s = "" <;> simp [hs]
  · intro run hj hpre hjr hterm
    unfold pollRunModel
    refine pollSteps_success_of responses j (pollIterations timeoutMs) 0 run hj
      ?_ (by simpa using hjr) hterm
    intro i hi
    simpa using hpre i hi
  · intro detail hj hpre hjr
    unfold pollRunModel
    refine pollSteps_failure_of responses j (pollIterations timeoutMs) 0 detail hj
      ?_ (by simpa using hjr)
    intro i hi
    simpa using hpre i hi
  · intro hall
    unfold pollRunModel
    refine pollSteps_timeout_of responses (pollIterations timeoutMs) 0 ?_
    intro i hi
    simpa using hall i hi

theorem pollRun_first_terminal_or_timeout_witness :
    pollRunModel pollRespW 120000 = .success ⟨.str "r1", .str "completed"⟩ := by
  refine (pollRun_first_terminal_or_timeout pollRespW 120000 1).2.2.2.1
    ⟨.str "r1", .str "completed"⟩ (by decide) ?_ rfl (by decide)
  intro i hi
  have hi0 : i = 0 := by omega
  subst hi0
  exact ⟨⟨.str "r1", .str "in_progress"⟩, rfl, by decide⟩

/-! ### Token freshness (C4) -/

/-- C4 counterexample: in the outbound trace of a `sendMessage` turn on an
existing thread whose poll loop fetched the status twice, the tokens
carried are `[0, 1, 2, 2, 3]` — both status fetches reuse acquisition 2,
the single `authHeaders()` call made before `pollRun`'s loop, so the
claimed pairwise freshness fails. -/
theorem sendMessage_token_reuse_cex :
    (sendMessageCalls (some "T") "T" "R" 2).map OutboundCall.token =
      [0, 1, 2, 2, 3] ∧
    ¬ ((sendMessageCalls (some "T") "T" "R" 2).map OutboundCall.token).Nodup := by
  have h1 : (sendMessageCalls (some "T") "T" "R" 2).map OutboundCall.token =
      [0, 1, 2, 2, 3] := rfl
  exact ⟨h1, by rw [h1]; decide⟩

/-- C4 amended: each of the create-thread, append-message, start-run and
list-messages calls of a `sendMessage` turn carries its own freshly
acquired token, but `pollRun` acquires exactly one token before its loop
and every status fetch of that loop reuses it. -/
theorem sendMessage_token_schedule (threadId : Option String)
    (tid runId : String) (iters : Nat) :
    (sendMessageCalls threadId tid runId iters).map OutboundCall.token =
      if threadIdTruthy threadId then
        [0, 1] ++ List.replicate iters 2 ++ [3]
      else
        [0, 1, 2] ++ List.replicate iters 3 ++ [4] := by
  by_cases h : threadIdTruthy threadId <;>
    simp [sendMessageCalls, ensureThreadCalls, appendUserMessageCalls,
      startRunCalls, pollRunCalls, listMessagesCalls, h, List.map_append,
      List.map_const']

/-! ### sendMessage result guarantee (C6) -/

theorem ensureThread_created (env : SendEnv) (tidOpt : Option String)
    (tid : JSValue) (hf : threadIdTruthy tidOpt = false)
    (h : ensureThreadModel env tidOpt = .ok tid) :
    ∃ body, env.createThreadResponse = .ok body ∧
      tid = getField body "id" ∧ truthy tid = true := by
  have hcr : createThreadModel env = .ok tid := by
    cases tidOpt with
    | none => simpa [ensureThreadModel] using h
    | some t =>
      have ht : t = "" := by
        by_contra hne
        simp [threadIdTruthy, hne] at hf
      subst ht
      simpa [ensureThreadModel] using h
  unfold createThreadModel at hcr
  cases hres : env.createThreadResponse with
  | error e => rw [hres] at hcr; cases hcr
  | ok body =>
    simp only [hres] at hcr
    by_cases htr : truthy (getField body "id") = true
    · rw [if_pos htr] at hcr
      cases hcr
      exact ⟨body, rfl, rfl, htr⟩
    · rw [if_neg htr] at hcr
      cases hcr

theorem listMessages_ok (env : SendEnv) (msgs : List FoundryMessage)
    (h : listMessagesModel env = .ok msgs) :
    ∃ payload, env.listResponse = .ok payload ∧
      mapMessages env.freshUuids env.nowIso 0 (dataArray payload) = .ok msgs ∧
      ((∀ items, getField payload "data" ≠ .arr items) → msgs = []) := by
  unfold listMessagesModel at h
  cases hres : env.listResponse with
  | error e => rw [hres] at h; cases h
  | ok payload =>
    simp only [hres] at h
    refine ⟨payload, rfl, h, ?_⟩
    intro hnone
    have hdata : dataArray payload = [] := by
      unfold dataArray
      cases hg : getField payload "data"
      case arr items => exact absurd hg (hnone items)
      all_goals rfl
    rw [hdata] at h
    simpa [mapMessages] using h.symm

/-- C6: on a successful `sendMessage(content, threadId?)`, the returned
`threadId` is the supplied identifier when a (truthy) one was given and
otherwise the newly created thread's identifier (which is always truthy);
the returned `run` is the final run the poll loop observed; and the
returned `messages` are the full mapped message list fetched after the
run left the in-progress set, with a missing or non-array upstream `data`
list treated as empty; the list request asks for ascending order. -/
theorem sendMessage_result_guarantee (env : SendEnv) (content : String)
    (tidOpt : Option String) (res : SendResult)
    (h : sendMessageModel env content tidOpt = .ok res) :
    (∀ t, tidOpt = some t → t ≠ "" → res.threadId = .str t) ∧
    (threadIdTruthy tidOpt = false →
      ∃ body, env.createThreadResponse = .ok body ∧
        res.threadId = getField body "id" ∧ truthy res.threadId = true) ∧
    (∃ finalRun, pollRunModel env.pollResponses defaultTimeoutMs =
        .success finalRun ∧ res.run = finalRun) ∧
    (∃ payload, env.listResponse = .ok payload ∧
      mapMessages env.freshUuids env.nowIso 0 (dataArray payload) =
        .ok res.messages ∧
      ((∀ items, getField payload "data" ≠ .arr items) → res.messages = [])) ∧
    (∀ tidStr : String, (listMessagesCalls tidStr 0).1.map OutboundCall.path =
      ["/threads/" ++ tidStr ++ "/messages?order=asc"]) := by
  unfold sendMessageModel at h
  cases hens : ensureThreadModel env tidOpt with
  | error e => rw [hens] at h; cases h
  | ok tid =>
  rw [hens] at h
  cases happ : env.appendResponse with
  | error e => rw [happ] at h; cases h
  | ok u =>
  rw [happ] at h
  cases hsr : env.startRunResponse with
  | error e => rw [hsr] at h; cases h
  | ok run0 =>
  rw [hsr] at h
  cases hpoll : pollRunModel env.pollResponses defaultTimeoutMs with
  | remoteError d => rw [hpoll] at h; cases h
  | timeout => rw [hpoll] at h; cases h
  | success finalRun =>
  rw [hpoll] at h
  cases hlist : listMessagesModel env with
  | error e => rw [hlist] at h; cases h
  | ok msgs =>
  rw [hlist] at h
  cases h
  refine ⟨?_, ?_, ⟨finalRun, rfl, rfl⟩, listMessages_ok env msgs hlist,
    fun tidStr => rfl⟩
  · intro t ht hne
    subst ht
    simp only [ensureThreadModel, if_pos hne] at hens
    · cases hens
      rfl
  · intro hf
    exact ensureThread_created env tidOpt tid hf hens

theorem envW_poll :
    pollRunModel (fun _ => .ok ⟨.str "R1", .str "completed"⟩) defaultTimeoutMs =
      .success ⟨.str "R1", .str "completed"⟩ := by
  unfold pollRunModel
  rw [show pollIterations defaultTimeoutMs = 149 + 1 from rfl]
  simp [pollSteps, envW, pollShouldReturn, isRunInProgressStatus, truthy]

theorem envW_send : sendMessageModel envW "hi" (some "T0") = .ok resW := by
  simp [sendMessageModel, ensureThreadModel, envW_poll, listMessagesModel,
    dataArray, mapMessages, mapMessage, getField, lookupField, coalesce,
    nullish, envW, resW]

theorem sendMessage_result_guarantee_witness :
    resW.threadId = .str "T0" ∧
    (∃ finalRun, pollRunModel envW.pollResponses defaultTimeoutMs =
        .success finalRun ∧ resW.run = finalRun) := by
  have hmain := sendMessage_result_guarantee envW "hi" (some "T0") resW envW_send
  exact ⟨hmain.1 "T0" rfl (by decide), hmain.2.2.1⟩

/-! ### Relay endpoint claims (C7, C8) -/

/-- C7 counterexample: with no credentials configured, the handler answers
503 to an all-whitespace message — the configuration check precedes
validation, so the response is not the 400 the claim promises for every
configuration state. -/
theorem chat_empty_message_unconfigured_cex :
    (handleChat false envW (.obj [("message", .str " ")])).1 = .unavailable ∧
    (handleChat false envW (.obj [("message", .str " ")])).1 ≠ .badRequest := by
  refine ⟨rfl, ?_⟩
  intro hcontra
  rw [show (handleChat false envW (.obj [("message", .str " ")])).1 =
    .unavailable from rfl] at hcontra
  nomatch hcontra

/-- C7 amended: when remote credentials ARE configured, a payload whose
`message` is a string that is empty or whitespace-only after trimming
always yields 400 without invoking the remote client, whatever the remote
behaviour; when they are not configured the response is instead 503. -/
theorem chat_empty_message_400 (env : SendEnv) (body : JSValue) (s : String)
    (hm : getField body "message" = .str s) (hs : jsTrim s = "") :
    (handleChat true env body).1 = .badRequest ∧
    (handleChat true env body).2 = false ∧
    (handleChat false env body).1 = .unavailable := by
  have hval : validateChatPayload body = none := by
    unfold validateChatPayload
    rw [hm]
    simp [hs]
  refine ⟨?_, ?_, rfl⟩ <;> simp [handleChat, hval]

theorem chat_empty_message_400_witness :
    (handleChat true envW (.obj [("message", .str "   ")])).1 = .badRequest ∧
    (handleChat true envW (.obj [("message", .str "   ")])).2 = false ∧
    (handleChat false envW (.obj [("message", .str "   ")])).1 = .unavailable :=
  chat_empty_message_400 envW (.obj [("message", .str "   ")]) "   "
    rfl (by decide)

/-- C8: with no credential group configured, every `POST /api/chat`
request yields 503 and the remote client is never invoked (the boolean
component is false), whatever the payload and the remote behaviour. -/
theorem chat_unconfigured_503 (env : SendEnv) (body : JSValue) :
    handleChat false env body = (.unavailable, false) := rfl

end AzureRelay
